import Mathlib

/-!
Verification of the `aer-dist` test-report formatter
(`cmd/actions/summary/main.go`).

The Go program is a pure transform: it decodes a JUnit XML test suite and a
JSON coverage document, aggregates per-class coverage into top-level classes,
and renders a markdown summary.  We shallowly embed the data model and the
pure functions `generateSummary`, `aggregateCoverageByTopLevel`,
`getCoverageEmoji`, `generateCoverageBar`, `generateMiniBar` and
`formatDurationSeconds` below, one Lean definition per Go function.

Embedding conventions:
* Go `int` fields become `Int`; Go `float64` fields become `ℚ` (all the
  numeric decisions of this program — threshold comparisons, `x/100*width`
  bar arithmetic and `math.Round` — are exact at the program's values, so
  rationals are a faithful model of them).
* Byte-oriented string operations (`strings.Contains cls "."`,
  `cls[:strings.Index(cls, ".")]`) are modelled on the character list of the
  string; `'.'` is a one-byte character, so the two views agree.
* The Go `agg` map (keyed by top-level name) is modelled as an association
  list keyed in first-insertion order; Go's map iteration order is
  unspecified, so every theorem below that depends on the aggregate only
  uses order-insensitive facts (membership, key sets, per-key values).
* Go's `sort.Slice` is modelled by insertion sort with the same comparator;
  only permutation-level facts about its output are used, because
  `sort.Slice` is documented as an unstable sort.
-/

namespace AerDist

/-- `true` iff the string contains a `'.'` — models `strings.Contains(s, ".")`. -/
def hasDot (s : String) : Bool :=
  s.data.any (fun c => c == '.')

/-- The portion of the string before the first `'.'` —
models `s[:strings.Index(s, ".")]` (used only when a dot is present). -/
def beforeDot (s : String) : String :=
  String.mk (s.data.takeWhile (fun c => c != '.'))

/-- One `<failure>` element of a JUnit test case (`junitFailure` in main.go).
`ftype` models the Go field `Type` (the XML `type` attribute). -/
structure junitFailure where
  message : String
  ftype : String
  body : String
deriving DecidableEq, Repr

/-- One `<testcase>` element (`junitTestCase` in main.go). -/
structure junitTestCase where
  name : String
  classname : String
  time : ℚ
  failures : List junitFailure
deriving DecidableEq, Repr

/-- The `<testsuite>` root (`junitTestSuite` in main.go). -/
structure junitTestSuite where
  name : String
  tests : Int
  failures : Int
  time : ℚ
  testCases : List junitTestCase
deriving DecidableEq, Repr

/-- Coverage for one class (`ClassCoverageInfo` in main.go).
`topLevel` is an `Option Bool` so that a JSON document in which the
`topLevel,omitempty` field is absent (`none`) can be told apart from one in
which it is explicitly `true`/`false`; `aggregateCoverageByTopLevel` never
reads this field, so the distinction does not affect the merge path. -/
structure ClassCoverageInfo where
  className : String
  uncoveredLines : List Int
  totalLines : Int
  coveredCount : Int
  uncoveredCount : Int
  percentage : ℚ
  topLevel : Option Bool
  topLevelClass : String
deriving DecidableEq, Repr

/-- Run-wide coverage aggregate (`CoverageSummary` in main.go). -/
structure CoverageSummary where
  classes : List ClassCoverageInfo
  overallCoverage : ℚ
  totalLines : Int
  coveredLines : Int
  uncoveredLines : Int
deriving DecidableEq, Repr

/-- The unified input of `generateSummary` (`TestResults` in main.go). -/
structure TestResults where
  suite : junitTestSuite
  coverage : CoverageSummary
deriving DecidableEq, Repr

/-- The owning top-level identity of a coverage record — the body of the
loop in `aggregateCoverageByTopLevel` (main.go lines 346-353): the explicit
`TopLevelClass` when non-empty, else the class-name portion before the first
`'.'`, else the whole class name. -/
def topName (cls : ClassCoverageInfo) : String :=
  if cls.topLevelClass = "" then
    if hasDot cls.className then beforeDot cls.className else cls.className
  else
    cls.topLevelClass

/-- Association-list update modelling `agg[topName]` (main.go lines 355-362):
add `t`/`c` to the entry keyed `k`, creating it at the end when absent. -/
def upsert : List (String × Int × Int) → String → Int → Int → List (String × Int × Int)
  | [], k, t, c => [(k, t, c)]
  | (k0, t0, c0) :: rest, k, t, c =>
    if k0 = k then (k0, t0 + t, c0 + c) :: rest
    else (k0, t0, c0) :: upsert rest k t c

/-- Association-list lookup for the aggregation map. -/
def lookupA : List (String × Int × Int) → String → Option (Int × Int)
  | [], _ => none
  | (k0, t0, c0) :: rest, k => if k0 = k then some (t0, c0) else lookupA rest k

/-- The `agg` map after the accumulation loop of `aggregateCoverageByTopLevel`
(main.go lines 344-362), keyed in first-insertion order. -/
def buildAgg (classes : List ClassCoverageInfo) : List (String × Int × Int) :=
  classes.foldl (fun m cls => upsert m (topName cls) cls.totalLines cls.coveredCount) []

/-- The finishing pass of `aggregateCoverageByTopLevel` (main.go lines
364-375): clamp covered to total, recompute uncovered and percentage — but
only for entries with a positive total. -/
def finalize (e : String × Int × Int) : ClassCoverageInfo :=
  if 0 < e.2.1 then
    { className := e.1
      uncoveredLines := []
      totalLines := e.2.1
      coveredCount := if e.2.1 < e.2.2 then e.2.1 else e.2.2
      uncoveredCount := e.2.1 - (if e.2.1 < e.2.2 then e.2.1 else e.2.2)
      percentage := ((if e.2.1 < e.2.2 then e.2.1 else e.2.2 : Int) : ℚ) / (e.2.1 : ℚ) * 100
      topLevel := none
      topLevelClass := "" }
  else
    { className := e.1
      uncoveredLines := []
      totalLines := e.2.1
      coveredCount := e.2.2
      uncoveredCount := 0
      percentage := 0
      topLevel := none
      topLevelClass := "" }

/-- `aggregateCoverageByTopLevel` (main.go lines 339-376).  Entries are
emitted in first-insertion order of the aggregation map; the Go original
ranges over a map, whose order is unspecified, so theorems below treat the
result up to permutation/membership. -/
def aggregateCoverageByTopLevel (classes : List ClassCoverageInfo) : List ClassCoverageInfo :=
  if classes = [] then [] else (buildAgg classes).map finalize

/-- Sum of `TotalLines` over the records whose owning identity is `k`. -/
def groupTotal (k : String) : List ClassCoverageInfo → Int
  | [] => 0
  | r :: rest => (if topName r = k then r.totalLines else 0) + groupTotal k rest

/-- Sum of `CoveredCount` over the records whose owning identity is `k`. -/
def groupCovered (k : String) : List ClassCoverageInfo → Int
  | [] => 0
  | r :: rest => (if topName r = k then r.coveredCount else 0) + groupCovered k rest

/-- Modelled from the spec: the Variant A filter-mode coverage aggregator
(spec section 4.2, mode 1).  The repository ships only Variant A's test file;
the Variant A summary generator itself is not among the sources, so this
definition follows the spec's words: when at least one record carries an
explicit top-level flag, keep exactly the records whose flag is true;
otherwise keep exactly the records whose class name has no nesting
delimiter. -/
def aggregateFilterTopLevel (classes : List ClassCoverageInfo) : List ClassCoverageInfo :=
  if classes.any (fun r => r.topLevel.isSome) then
    classes.filter (fun r => r.topLevel == some true)
  else
    classes.filter (fun r => !(hasDot r.className))

/-! ## Rendering helpers -/

/-- Left-pad a digit string with zeros to the given length. -/
def padZeros (s : String) (len : Nat) : String :=
  String.mk (List.replicate (len - s.length) '0') ++ s

/-- Round to the nearest integer, halves away from zero — the semantics of
Go's `math.Round`. -/
def roundHalfAway (q : ℚ) : Int :=
  if 0 ≤ q then ⌊q + 1/2⌋ else -⌊-q + 1/2⌋

/-- Fixed-point decimal rendering with `prec` digits — models Go's
`fmt.Sprintf("%.<prec>f", x)` (correctly rounded decimal output; the
half-way tie rule is immaterial to every theorem below). -/
def formatFixed (prec : Nat) (q : ℚ) : String :=
  let n : Int := roundHalfAway (q * ((10 : ℚ) ^ prec))
  let m : Nat := n.natAbs
  let sign : String := if n < 0 then "-" else ""
  if prec = 0 then sign ++ toString m
  else sign ++ toString (m / 10 ^ prec) ++ "." ++ padZeros (toString (m % 10 ^ prec)) prec

/-- Truncation toward zero of a rational — the semantics of Go's `int(x)`
conversion on a float. -/
def truncQ (q : ℚ) : Int :=
  q.num.tdiv (q.den : Int)

/-- `formatDurationSeconds` (main.go lines 288-299). -/
def formatDurationSeconds (seconds : ℚ) : String :=
  let ms := seconds * 1000
  if ms < 1000 then formatFixed 0 ms ++ "ms"
  else if ms < 60000 then formatFixed 2 seconds ++ "s"
  else
    let minutes := truncQ (seconds / 60)
    toString minutes ++ "m " ++ formatFixed 1 (seconds - (minutes : ℚ) * 60) ++ "s"

/-- `getCoverageEmoji` (main.go lines 301-310). -/
def getCoverageEmoji (percentage : ℚ) : String :=
  if 80 ≤ percentage then "🟢"
  else if 60 ≤ percentage then "🟡"
  else if 40 ≤ percentage then "🟠"
  else "🔴"

/-- `strings.Repeat` for the bar glyphs. -/
def strRepeat (s : String) (n : Nat) : String :=
  String.join (List.replicate n s)

/-- The filled-cell count of the 50-character overall coverage bar
(main.go lines 313-319): `int(math.Round((percentage/100)*50))`, clamped
into `[0, 50]`. -/
def coverageBarFilled (percentage : ℚ) : Int :=
  let filled := roundHalfAway (percentage / 100 * 50)
  if filled < 0 then 0 else if 50 < filled then 50 else filled

/-- `generateCoverageBar` (main.go lines 312-324). -/
def generateCoverageBar (percentage : ℚ) : String :=
  "Coverage: " ++ formatFixed 2 percentage ++ "% [" ++
    strRepeat "█" (coverageBarFilled percentage).toNat ++
    strRepeat "░" (50 - coverageBarFilled percentage).toNat ++ "]"

/-- The filled-cell count of the 10-character per-class mini-bar
(main.go lines 327-333). -/
def miniBarFilled (percentage : ℚ) : Int :=
  let filled := roundHalfAway (percentage / 100 * 10)
  if filled < 0 then 0 else if 10 < filled then 10 else filled

/-- `generateMiniBar` (main.go lines 326-337). -/
def generateMiniBar (percentage : ℚ) : String :=
  "`" ++ strRepeat "█" (miniBarFilled percentage).toNat ++
    strRepeat "░" (10 - miniBarFilled percentage).toNat ++ "`"

/-! ## The sections of `generateSummary` (main.go lines 137-286), in
emission order.  Each section function is the contiguous block of
`sb.WriteString` calls that produces it. -/

/-- Header (main.go lines 142-151). -/
def headerSection (suite : junitTestSuite) : String :=
  if suite.failures = 0 then "# ✅ Apex Test Results: All Tests Passed\n\n"
  else "# ❌ Apex Test Results: Some Tests Failed\n\n"

/-- The two optional coverage rows of the summary table (main.go lines
166-173). -/
def coverageRows (coverage : CoverageSummary) : String :=
  if 0 < coverage.totalLines then
    "| " ++ getCoverageEmoji coverage.overallCoverage ++ " Code Coverage | **" ++
      formatFixed 2 coverage.overallCoverage ++ "%** |\n" ++
    "| Lines Covered | **" ++ toString coverage.coveredLines ++ "** / **" ++
      toString coverage.totalLines ++ "** |\n"
  else ""

/-- Test summary statistics table (main.go lines 154-176). -/
def testSummarySection (suite : junitTestSuite) (coverage : CoverageSummary) : String :=
  if 0 < suite.tests then
    "## 📊 Test Summary\n\n| Metric | Value |\n|--------|-------|\n" ++
    "| Total Tests | **" ++ toString suite.tests ++ "** |\n" ++
    "| ✅ Passed | **" ++ toString (suite.tests - suite.failures) ++ "** |\n" ++
    "| ❌ Failed | **" ++ toString suite.failures ++ "** |\n" ++
    "| ⏱️ Duration | **" ++ formatDurationSeconds suite.time ++ "** |\n" ++
    coverageRows coverage ++ "\n"
  else ""

/-- One row of the per-class coverage table (main.go lines 201-206). -/
def classRow (cls : ClassCoverageInfo) : String :=
  "| `" ++ cls.className ++ "` | " ++ getCoverageEmoji cls.percentage ++ " " ++
    formatFixed 1 cls.percentage ++ "% " ++ generateMiniBar cls.percentage ++ " | " ++
    toString cls.coveredCount ++ " / " ++ toString cls.totalLines ++ " |\n"

/-- The aggregated classes in display order (main.go lines 195-199): the Go
code sorts with `sort.Slice` and the comparator `Percentage(i) >
Percentage(j)`.  `sort.Slice` is documented as unstable and the slice being
sorted comes from ranging over a map, so only the multiset of rows is
determined by the input; we model one admissible outcome with an insertion
sort over the first-insertion-ordered aggregate. -/
def sortedDisplayClasses (classes : List ClassCoverageInfo) : List ClassCoverageInfo :=
  List.insertionSort (fun a b => b.percentage ≤ a.percentage)
    (aggregateCoverageByTopLevel classes)

/-- Per-class coverage table (main.go lines 186-209). -/
def classTableSection (coverage : CoverageSummary) : String :=
  let topLevelClasses := aggregateCoverageByTopLevel coverage.classes
  if 0 < topLevelClasses.length then
    "### Coverage by Class\n\n<details>\n<summary>View " ++
      toString topLevelClasses.length ++ " classes</summary>\n\n" ++
    "| Class | Coverage | Lines Covered |\n|-------|----------|---------------|\n" ++
    String.join ((sortedDisplayClasses coverage.classes).map classRow) ++
    "\n</details>\n\n"
  else ""

/-- Coverage overview: bar chart plus the per-class table (main.go lines
179-210). -/
def coverageOverviewSection (coverage : CoverageSummary) : String :=
  if 0 < coverage.totalLines then
    "## 📈 Coverage Overview\n\n```\n" ++ generateCoverageBar coverage.overallCoverage ++
      "\n```\n\n" ++ classTableSection coverage
  else ""

/-- The text block of a single failure entry (main.go lines 218-226): the
message, falling back to the body, omitted entirely when both are empty. -/
def failureBlock (f : junitFailure) : String :=
  let msg := if f.message = "" then f.body else f.message
  if msg = "" then "" else "```\n" ++ msg ++ "\n```\n\n"

/-- The subsection for one failing test case (main.go lines 216-227). -/
def failedCaseBlock (tc : junitTestCase) : String :=
  if 0 < tc.failures.length then
    "### " ++ tc.classname ++ "." ++ tc.name ++ "\n\n" ++
      String.join (tc.failures.map failureBlock)
  else ""

/-- Failed-tests section (main.go lines 213-229). -/
def failedTestsSection (suite : junitTestSuite) : String :=
  if 0 < suite.failures then
    "## ❌ Failed Tests\n\n" ++ String.join (suite.testCases.map failedCaseBlock)
  else ""

/-- The pass/fail glyph of a test-case row (main.go lines 254-257 and
274-277). -/
def testStatusEmoji (tc : junitTestCase) : String :=
  if 0 < tc.failures.length then "❌" else "✅"

/-- One row of the slowest-tests table (main.go lines 258-259). -/
def timingRow (tc : junitTestCase) : String :=
  "| " ++ testStatusEmoji tc ++ " `" ++ tc.classname ++ "." ++ tc.name ++ "` | " ++
    formatDurationSeconds tc.time ++ " |\n"

/-- Test performance section (main.go lines 232-263); the Go code sorts a
copy of the test cases by duration descending with `sort.Slice` (unstable;
we model one admissible outcome with insertion sort) and renders the first
`min 10 count` rows. -/
def timingSection (suite : junitTestSuite) : String :=
  if 0 < suite.testCases.length then
    "## ⏱️ Test Performance\n\n<details>\n<summary>Top 10 Slowest Tests</summary>\n\n" ++
    "| Test | Duration |\n|------|----------|\n" ++
    String.join (((List.insertionSort (fun a b : junitTestCase => b.time ≤ a.time)
      suite.testCases).take (min 10 suite.testCases.length)).map timingRow) ++
    "\n</details>\n\n"
  else ""

/-- One row of the all-tests table (main.go lines 278-279). -/
def allTestsRow (tc : junitTestCase) : String :=
  "| " ++ testStatusEmoji tc ++ " | `" ++ tc.classname ++ "." ++ tc.name ++ "` | " ++
    formatDurationSeconds tc.time ++ " |\n"

/-- All-tests section (main.go lines 266-283), in input order. -/
def allTestsSection (suite : junitTestSuite) : String :=
  if 0 < suite.testCases.length then
    "## 📋 All Tests\n\n<details>\n<summary>View all " ++
      toString suite.testCases.length ++ " tests</summary>\n\n" ++
    "| Status | Test | Duration |\n|--------|------|----------|\n" ++
    String.join (suite.testCases.map allTestsRow) ++
    "\n</details>\n\n"
  else ""

/-- `generateSummary` (main.go lines 137-286): the concatenation of the six
sections in emission order. -/
def generateSummary (results : TestResults) : String :=
  headerSection results.suite ++
  testSummarySection results.suite results.coverage ++
  coverageOverviewSection results.coverage ++
  failedTestsSection results.suite ++
  timingSection results.suite ++
  allTestsSection results.suite

/-! ## Aggregation lemmas -/

theorem lookupA_upsert (m : List (String × Int × Int)) (k : String) (t c : Int)
    (k' : String) :
    lookupA (upsert m k t c) k' =
      if k' = k then
        match lookupA m k with
        | some (t0, c0) => some (t0 + t, c0 + c)
        | none => some (t, c)
      else lookupA m k' := by
  induction m with
  | nil =>
    by_cases h : k' = k
    · subst h; simp [upsert, lookupA]
    · simp [upsert, lookupA, h, Ne.symm h]
  | cons hd tl ih =>
    obtain ⟨k0, t0, c0⟩ := hd
    by_cases h0 : k0 = k
    · subst h0
      by_cases h' : k' = k0
      · subst h'
        simp [upsert, lookupA]
      · simp [upsert, lookupA, h', Ne.symm h']
    · by_cases h' : k0 = k'
      · subst h'
        simp [upsert, lookupA, h0, Ne.symm h0, ih]
      · simp [upsert, lookupA, h0, h', ih]

theorem keysA_upsert (m : List (String × Int × Int)) (k : String) (t c : Int) :
    (upsert m k t c).map Prod.fst =
      if k ∈ m.map Prod.fst then m.map Prod.fst else m.map Prod.fst ++ [k] := by
  induction m with
  | nil => simp [upsert]
  | cons hd tl ih =>
    obtain ⟨k0, t0, c0⟩ := hd
    by_cases h0 : k0 = k
    · subst h0; simp [upsert]
    · simp only [upsert, if_neg h0, List.map_cons, ih]
      by_cases hk : k ∈ tl.map Prod.fst
      · rw [if_pos hk, if_pos (by simp [hk])]
      · rw [if_neg hk, if_neg (by simp [hk, Ne.symm h0]), List.cons_append]

theorem nodup_keysA_upsert (m : List (String × Int × Int)) (k : String) (t c : Int)
    (h : (m.map Prod.fst).Nodup) : ((upsert m k t c).map Prod.fst).Nodup := by
  rw [keysA_upsert]
  split
  · exact h
  · next hk => simp [List.nodup_append, h, hk]

theorem lookupA_eq_none_iff (m : List (String × Int × Int)) (k : String) :
    lookupA m k = none ↔ k ∉ m.map Prod.fst := by
  induction m with
  | nil => simp [lookupA]
  | cons hd tl ih =>
    obtain ⟨k0, t0, c0⟩ := hd
    by_cases h0 : k0 = k
    · subst h0; simp [lookupA]
    · simp [lookupA, h0, ih, Ne.symm h0]

theorem lookupA_of_mem_nodup (m : List (String × Int × Int))
    (h : (m.map Prod.fst).Nodup) (e : String × Int × Int) (he : e ∈ m) :
    lookupA m e.1 = some e.2 := by
  induction m with
  | nil => cases he
  | cons hd tl ih =>
    obtain ⟨k0, t0, c0⟩ := hd
    rcases List.mem_cons.mp he with rfl | htl
    · simp [lookupA]
    · have hk0 : k0 ≠ e.1 := by
        rintro rfl
        exact (List.nodup_cons.mp h).1 (List.mem_map.mpr ⟨e, htl, rfl⟩)
      simp [lookupA, hk0]
      exact ih (List.nodup_cons.mp h).2 htl

/-- The accumulation loop computes, for every key, the group sums of the
records consumed so far. -/
theorem lookupA_foldl (l : List ClassCoverageInfo) :
    ∀ (m : List (String × Int × Int)) (k : String),
    lookupA (l.foldl (fun m cls => upsert m (topName cls) cls.totalLines cls.coveredCount) m) k =
      match lookupA m k with
      | some (t0, c0) => some (t0 + groupTotal k l, c0 + groupCovered k l)
      | none =>
        if l.any (fun r => topName r == k) then
          some (groupTotal k l, groupCovered k l)
        else none := by
  induction l with
  | nil =>
    intro m k
    cases h : lookupA m k with
    | none => simp [h]
    | some p => obtain ⟨t0, c0⟩ := p; simp [h, groupTotal, groupCovered]
  | cons r rest ih =>
    intro m k
    rw [List.foldl_cons, ih]
    simp only [lookupA_upsert]
    by_cases hk : k = topName r
    · subst hk
      cases h : lookupA m (topName r) with
      | none =>
        simp [h, groupTotal, groupCovered]
      | some p =>
        obtain ⟨t0, c0⟩ := p
        simp [h, groupTotal, groupCovered]
        omega
    · have hk' : topName r ≠ k := Ne.symm hk
      cases h : lookupA m k with
      | none =>
        simp [h, hk, hk', groupTotal, groupCovered]
      | some p =>
        obtain ⟨t0, c0⟩ := p
        simp [h, hk, hk', groupTotal, groupCovered]

theorem nodup_keysA_foldl (l : List ClassCoverageInfo) :
    ∀ m : List (String × Int × Int), (m.map Prod.fst).Nodup →
    ((l.foldl (fun m cls => upsert m (topName cls) cls.totalLines cls.coveredCount) m).map
      Prod.fst).Nodup := by
  induction l with
  | nil => intro m h; simpa using h
  | cons r rest ih =>
    intro m h
    rw [List.foldl_cons]
    exact ih _ (nodup_keysA_upsert _ _ _ _ h)

theorem nodup_keysA_buildAgg (l : List ClassCoverageInfo) :
    ((buildAgg l).map Prod.fst).Nodup :=
  nodup_keysA_foldl l [] (by simp)

/-- The aggregation map, looked up directly: group sums for encountered
keys, nothing for the rest. -/
theorem lookupA_buildAgg (l : List ClassCoverageInfo) (k : String) :
    lookupA (buildAgg l) k =
      if l.any (fun r => topName r == k) then
        some (groupTotal k l, groupCovered k l)
      else none := by
  have h2 := lookupA_foldl l [] k
  simp only [lookupA] at h2
  rw [buildAgg]
  exact h2

/-- Every entry of the aggregation map carries exactly the group sums of its
key. -/
theorem mem_buildAgg_char (l : List ClassCoverageInfo) (x : String × Int × Int)
    (hx : x ∈ buildAgg l) :
    x.2.1 = groupTotal x.1 l ∧ x.2.2 = groupCovered x.1 l := by
  obtain ⟨k, t2, c2⟩ := x
  have h1 : lookupA (buildAgg l) k = some (t2, c2) :=
    lookupA_of_mem_nodup _ (nodup_keysA_buildAgg l) ⟨k, t2, c2⟩ hx
  rw [lookupA_buildAgg] at h1
  by_cases hany : l.any (fun r => topName r == k)
  · rw [if_pos hany] at h1
    simp at h1
    exact ⟨h1.1.symm, h1.2.symm⟩
  · rw [if_neg hany] at h1
    cases h1

theorem mem_keysA_buildAgg_iff (l : List ClassCoverageInfo) (k : String) :
    k ∈ (buildAgg l).map Prod.fst ↔ ∃ r ∈ l, topName r = k := by
  rw [← not_iff_not, ← lookupA_eq_none_iff]
  rw [lookupA_buildAgg]
  by_cases hany : l.any (fun r => topName r == k)
  · rw [if_pos hany]
    simp only [List.any_eq_true, beq_iff_eq] at hany
    simp [hany]
  · rw [if_neg hany]
    simp only [List.any_eq_true, beq_iff_eq] at hany
    simp [hany]

theorem finalize_className (x : String × Int × Int) : (finalize x).className = x.1 := by
  unfold finalize
  split <;> rfl

theorem aggregate_eq (l : List ClassCoverageInfo) :
    aggregateCoverageByTopLevel l = (buildAgg l).map finalize := by
  cases l with
  | nil => simp [aggregateCoverageByTopLevel, buildAgg]
  | cons r rest => simp [aggregateCoverageByTopLevel]

theorem names_aggregate (l : List ClassCoverageInfo) :
    (aggregateCoverageByTopLevel l).map (fun e => e.className) = (buildAgg l).map Prod.fst := by
  rw [aggregate_eq, List.map_map]
  exact List.map_congr_left (fun x _ => finalize_className x)

theorem nodup_names_aggregate (l : List ClassCoverageInfo) :
    ((aggregateCoverageByTopLevel l).map (fun e => e.className)).Nodup := by
  rw [names_aggregate]; exact nodup_keysA_buildAgg l

theorem mem_names_aggregate_iff (l : List ClassCoverageInfo) (k : String) :
    k ∈ (aggregateCoverageByTopLevel l).map (fun e => e.className) ↔
      ∃ r ∈ l, topName r = k := by
  rw [names_aggregate]; exact mem_keysA_buildAgg_iff l k

/-- The per-record characterisation of the merge aggregator's output. -/
theorem mem_aggregate_char (l : List ClassCoverageInfo) (e : ClassCoverageInfo)
    (he : e ∈ aggregateCoverageByTopLevel l) :
    e.totalLines = groupTotal e.className l ∧
    (0 < groupTotal e.className l →
      e.coveredCount = min (groupCovered e.className l) (groupTotal e.className l) ∧
      e.uncoveredCount = e.totalLines - e.coveredCount ∧
      e.percentage = (e.coveredCount : ℚ) / (e.totalLines : ℚ) * 100) ∧
    (groupTotal e.className l ≤ 0 →
      e.coveredCount = groupCovered e.className l ∧
      e.uncoveredCount = 0 ∧ e.percentage = 0) := by
  rw [aggregate_eq] at he
  obtain ⟨x, hx, hfx⟩ := List.mem_map.mp he
  obtain ⟨hT, hC⟩ := mem_buildAgg_char l x hx
  obtain ⟨k, t, c⟩ := x
  simp only at hT hC
  subst hfx
  have hname : (finalize (k, t, c)).className = k := finalize_className _
  rw [hname, ← hT, ← hC]
  unfold finalize
  by_cases hpos : 0 < t
  · rw [if_pos hpos]
    refine ⟨rfl, fun _ => ⟨?_, rfl, rfl⟩, fun hle => absurd hpos (not_lt.mpr hle)⟩
    simp only
    omega
  · rw [if_neg hpos]
    exact ⟨rfl, fun hlt => absurd hlt hpos, fun _ => ⟨rfl, rfl, rfl⟩⟩

/-! ## Sign lemmas about the group sums -/

theorem groupTotal_nonneg (l : List ClassCoverageInfo) (k : String)
    (h : ∀ r ∈ l, 0 ≤ r.totalLines) : 0 ≤ groupTotal k l := by
  induction l with
  | nil => simp [groupTotal]
  | cons r rest ih =>
    have h1 := h r (List.mem_cons_self r rest)
    have h2 := ih (fun s hs => h s (List.mem_cons_of_mem _ hs))
    simp only [groupTotal]
    split <;> omega

theorem groupCovered_nonneg (l : List ClassCoverageInfo) (k : String)
    (h : ∀ r ∈ l, 0 ≤ r.coveredCount) : 0 ≤ groupCovered k l := by
  induction l with
  | nil => simp [groupCovered]
  | cons r rest ih =>
    have h1 := h r (List.mem_cons_self r rest)
    have h2 := ih (fun s hs => h s (List.mem_cons_of_mem _ hs))
    simp only [groupCovered]
    split <;> omega

/-- A group whose summed total vanishes has vanishing summed covered count,
provided no input record pairs a zero total with a nonzero covered count. -/
theorem groupCovered_eq_zero (l : List ClassCoverageInfo) (k : String)
    (h : ∀ r ∈ l, 0 ≤ r.totalLines ∧ 0 ≤ r.coveredCount ∧
      (r.totalLines = 0 → r.coveredCount = 0))
    (ht : groupTotal k l ≤ 0) : groupCovered k l = 0 := by
  induction l with
  | nil => simp [groupCovered]
  | cons r rest ih =>
    obtain ⟨h1, h2, h3⟩ := h r (List.mem_cons_self r rest)
    have hrest := fun s hs => h s (List.mem_cons_of_mem r hs)
    have htr : 0 ≤ groupTotal k rest :=
      groupTotal_nonneg rest k (fun s hs => (hrest s hs).1)
    simp only [groupTotal] at ht
    simp only [groupCovered]
    by_cases hk : topName r = k
    · rw [if_pos hk] at ht ⊢
      have ht0 : r.totalLines = 0 := by omega
      rw [h3 ht0, ih hrest (by omega)]
      omega
    · rw [if_neg hk] at ht ⊢
      rw [ih hrest (by omega)]
      omega

/-! ## Claim C1 -/

/-- C1 counterexample: on the single input record with class name `A`,
total-line count 0 and covered count 5, merge-mode aggregation emits the
record (`A`, total 0, covered 5, uncovered 0, percentage 0).  The covered
count is not clamped to the total (5 > 0) and uncovered ≠ total − covered,
because `aggregateCoverageByTopLevel` clamps and recomputes only inside
`if entry.TotalLines > 0` (main.go lines 366-372); so the claim's
unconditional clamp/uncovered/percentage recomputation is false. -/
theorem c1_counterexample :
    (aggregateCoverageByTopLevel [⟨"A", [], 0, 5, 0, 0, none, ""⟩]).map
        (fun e => (e.className, e.totalLines, e.coveredCount, e.uncoveredCount, e.percentage)) =
      [("A", 0, 5, 0, 0)] ∧ ¬ ((5 : Int) ≤ (0 : Int)) := by
  constructor
  · simp [aggregateCoverageByTopLevel, buildAgg, upsert, topName, hasDot, finalize]
  · decide

/-- C1 (amended): merge-mode aggregation groups records by owning top-level
identity (explicit owner name when non-empty, else the class-name portion
before the first dot, else the whole class name), emits exactly one record
per group named after that identity, and sums total and covered line counts
across each group.  For a group with positive summed total, covered is
clamped to at most total, uncovered = total − covered and percentage =
covered/total × 100; a group with non-positive summed total keeps its summed
covered count, with uncovered = 0 and percentage = 0. -/
theorem c1_merge_aggregation (l : List ClassCoverageInfo) :
    ((aggregateCoverageByTopLevel l).map (fun e => e.className)).Nodup ∧
    (∀ n : String,
      n ∈ (aggregateCoverageByTopLevel l).map (fun e => e.className) ↔
        ∃ r ∈ l, topName r = n) ∧
    (∀ e ∈ aggregateCoverageByTopLevel l,
      e.totalLines = groupTotal e.className l ∧
      (0 < groupTotal e.className l →
        e.coveredCount = min (groupCovered e.className l) (groupTotal e.className l) ∧
        e.uncoveredCount = e.totalLines - e.coveredCount ∧
        e.percentage = (e.coveredCount : ℚ) / (e.totalLines : ℚ) * 100) ∧
      (groupTotal e.className l ≤ 0 →
        e.coveredCount = groupCovered e.className l ∧
        e.uncoveredCount = 0 ∧ e.percentage = 0)) :=
  ⟨nodup_names_aggregate l, fun n => mem_names_aggregate_iff l n,
    fun e he => mem_aggregate_char l e he⟩

/-- C1 witness: the amended characterisation applied to the repository's own
test fixture (Alpha 20/30, Beta 10/20, Alpha.InnerHelper 8/10 owned by
Alpha): the aggregated Alpha row carries the group sums 40 and min 28 40. -/
theorem c1_merge_aggregation_witness :
    (⟨"Alpha", [], 40, 28, 12, 70, none, ""⟩ : ClassCoverageInfo).totalLines =
      groupTotal "Alpha"
        [⟨"Alpha", [], 30, 20, 10, 66, some true, "Alpha"⟩,
         ⟨"Beta", [], 20, 10, 10, 50, some true, "Beta"⟩,
         ⟨"Alpha.InnerHelper", [], 10, 8, 2, 80, some false, "Alpha"⟩] ∧
    (⟨"Alpha", [], 40, 28, 12, 70, none, ""⟩ : ClassCoverageInfo).coveredCount =
      min
        (groupCovered "Alpha"
          [⟨"Alpha", [], 30, 20, 10, 66, some true, "Alpha"⟩,
           ⟨"Beta", [], 20, 10, 10, 50, some true, "Beta"⟩,
           ⟨"Alpha.InnerHelper", [], 10, 8, 2, 80, some false, "Alpha"⟩])
        (groupTotal "Alpha"
          [⟨"Alpha", [], 30, 20, 10, 66, some true, "Alpha"⟩,
           ⟨"Beta", [], 20, 10, 10, 50, some true, "Beta"⟩,
           ⟨"Alpha.InnerHelper", [], 10, 8, 2, 80, some false, "Alpha"⟩]) := by
  have hmem : (⟨"Alpha", [], 40, 28, 12, 70, none, ""⟩ : ClassCoverageInfo) ∈
      aggregateCoverageByTopLevel
        [⟨"Alpha", [], 30, 20, 10, 66, some true, "Alpha"⟩,
         ⟨"Beta", [], 20, 10, 10, 50, some true, "Beta"⟩,
         ⟨"Alpha.InnerHelper", [], 10, 8, 2, 80, some false, "Alpha"⟩] := by
    have hagg : aggregateCoverageByTopLevel
        [⟨"Alpha", [], 30, 20, 10, 66, some true, "Alpha"⟩,
         ⟨"Beta", [], 20, 10, 10, 50, some true, "Beta"⟩,
         ⟨"Alpha.InnerHelper", [], 10, 8, 2, 80, some false, "Alpha"⟩] =
        [⟨"Alpha", [], 40, 28, 12, 70, none, ""⟩, ⟨"Beta", [], 20, 10, 10, 50, none, ""⟩] := by
      simp [aggregateCoverageByTopLevel, buildAgg, upsert, topName, hasDot, finalize]
      norm_num
    rw [hagg]
    exact List.mem_cons_self _ _
  have h := (c1_merge_aggregation _).2.2 _ hmem
  have hpos : 0 < groupTotal "Alpha"
      [⟨"Alpha", [], 30, 20, 10, 66, some true, "Alpha"⟩,
       ⟨"Beta", [], 20, 10, 10, 50, some true, "Beta"⟩,
       ⟨"Alpha.InnerHelper", [], 10, 8, 2, 80, some false, "Alpha"⟩] := by
    simp [groupTotal, topName, hasDot]
  exact ⟨h.1, (h.2.1 hpos).1⟩

/-! ## Claim C3 -/

/-- C3 counterexample: on the single input record with class name `B`,
total 0 and covered 7, the sum of emitted covered counts (7) exceeds the
sum of emitted total counts (0), because the clamp runs only for entries
with positive total; so the claim's unconditional sum inequality is
false. -/
theorem c3_counterexample :
    ((aggregateCoverageByTopLevel [⟨"B", [], 0, 7, 0, 0, none, ""⟩]).map
        (fun e => e.coveredCount)).sum = 7 ∧
    ((aggregateCoverageByTopLevel [⟨"B", [], 0, 7, 0, 0, none, ""⟩]).map
        (fun e => e.totalLines)).sum = 0 ∧
    ¬ ((7 : Int) ≤ (0 : Int)) := by
  refine ⟨?_, ?_, by decide⟩ <;>
    simp [aggregateCoverageByTopLevel, buildAgg, upsert, topName, hasDot, finalize]

/-- C3 (amended): for inputs whose records all carry non-negative total and
covered counts and never pair a zero total with a nonzero covered count,
every record emitted by merge-mode aggregation satisfies covered ≤ total,
the sum of emitted covered counts is at most the sum of emitted total
counts, and every emitted percentage lies in [0, 100]. -/
theorem c3_merge_invariants (l : List ClassCoverageInfo)
    (h : ∀ r ∈ l, 0 ≤ r.totalLines ∧ 0 ≤ r.coveredCount ∧
      (r.totalLines = 0 → r.coveredCount = 0)) :
    (∀ e ∈ aggregateCoverageByTopLevel l,
      e.coveredCount ≤ e.totalLines ∧ 0 ≤ e.percentage ∧ e.percentage ≤ 100) ∧
    ((aggregateCoverageByTopLevel l).map (fun e => e.coveredCount)).sum ≤
      ((aggregateCoverageByTopLevel l).map (fun e => e.totalLines)).sum := by
  have hrec : ∀ e ∈ aggregateCoverageByTopLevel l,
      e.coveredCount ≤ e.totalLines ∧ 0 ≤ e.percentage ∧ e.percentage ≤ 100 := by
    intro e he
    obtain ⟨hT, hpos, hnonpos⟩ := mem_aggregate_char l e he
    by_cases hgt : 0 < groupTotal e.className l
    · obtain ⟨hc, hu, hp⟩ := hpos hgt
      have hCnn : 0 ≤ groupCovered e.className l :=
        groupCovered_nonneg l _ (fun s hs => (h s hs).2.1)
      have hc_le : e.coveredCount ≤ e.totalLines := by
        rw [hc, hT]; exact min_le_right _ _
      have hc_nn : 0 ≤ e.coveredCount := by
        rw [hc]; exact le_min hCnn (le_of_lt hgt)
      have htpos : (0 : ℚ) < (e.totalLines : ℚ) := by
        rw [hT]; exact_mod_cast hgt
      refine ⟨hc_le, ?_, ?_⟩
      · rw [hp]
        apply mul_nonneg _ (by norm_num)
        exact div_nonneg (by exact_mod_cast hc_nn) (le_of_lt htpos)
      · rw [hp]
        have hdiv : (e.coveredCount : ℚ) / (e.totalLines : ℚ) ≤ 1 :=
          (div_le_one htpos).mpr (by exact_mod_cast hc_le)
        calc (e.coveredCount : ℚ) / (e.totalLines : ℚ) * 100
            ≤ 1 * 100 := mul_le_mul_of_nonneg_right hdiv (by norm_num)
          _ = 100 := one_mul 100
    · have hle : groupTotal e.className l ≤ 0 := not_lt.mp hgt
      obtain ⟨hc, hu, hp⟩ := hnonpos hle
      have hCz : groupCovered e.className l = 0 := groupCovered_eq_zero l _ h hle
      refine ⟨?_, by rw [hp], by rw [hp]; norm_num⟩
      rw [hc, hCz, hT]
      exact groupTotal_nonneg l _ (fun s hs => (h s hs).1)
  exact ⟨hrec, List.sum_le_sum (fun e he => (hrec e he).1)⟩

/-- C3 witness: the amended invariant applied to a concrete list containing
an inconsistent record (covered 10 of total 3, exercising the clamp). -/
theorem c3_merge_invariants_witness :
    ((aggregateCoverageByTopLevel
        [⟨"X", [], 3, 10, 0, 0, none, ""⟩, ⟨"Y", [], 20, 10, 10, 50, none, ""⟩]).map
      (fun e => e.coveredCount)).sum ≤
    ((aggregateCoverageByTopLevel
        [⟨"X", [], 3, 10, 0, 0, none, ""⟩, ⟨"Y", [], 20, 10, 10, 50, none, ""⟩]).map
      (fun e => e.totalLines)).sum :=
  (c3_merge_invariants _ (by decide)).2

/-! ## Claim C2 -/

/-- C2: whenever at least one record carries an explicit top-level flag,
filter-mode aggregation keeps exactly the records whose flag is true, in
order and unmodified (every survivor is literally an input record), and
never merges counts.  (The filter-mode aggregator is modelled from the spec,
since only Variant A's tests ship with the repository.) -/
theorem c2_filter_mode (l : List ClassCoverageInfo)
    (h : l.any (fun r => r.topLevel.isSome) = true) :
    aggregateFilterTopLevel l = l.filter (fun r => r.topLevel == some true) ∧
    ∀ r ∈ aggregateFilterTopLevel l, r ∈ l := by
  have heq : aggregateFilterTopLevel l = l.filter (fun r => r.topLevel == some true) := by
    unfold aggregateFilterTopLevel
    rw [if_pos h]
  exact ⟨heq, fun r hr => List.mem_of_mem_filter (heq ▸ hr)⟩

/-- C2 witness: the spec's own scenario — Alpha (20/30, top level), Beta
(10/20, top level), Alpha.InnerHelper (8/10, explicitly not top level) —
yields exactly the unmodified Alpha and Beta rows. -/
theorem c2_filter_mode_witness :
    aggregateFilterTopLevel
        [⟨"Alpha", [], 30, 20, 10, 66, some true, "Alpha"⟩,
         ⟨"Beta", [], 20, 10, 10, 50, some true, "Beta"⟩,
         ⟨"Alpha.InnerHelper", [], 10, 8, 2, 80, some false, "Alpha"⟩] =
      [⟨"Alpha", [], 30, 20, 10, 66, some true, "Alpha"⟩,
       ⟨"Beta", [], 20, 10, 10, 50, some true, "Beta"⟩] :=
  ((c2_filter_mode _ (by decide)).1).trans (by decide)

/-! ## Claim C4 -/

/-- C4 counterexample: the dotted, explicitly-not-top-level record
`Outer.Inner` whose explicit owner field names itself appears in the
per-class table under its own (dotted) name, contradicting the claim that
no nested class ever appears under its own name as a row. -/
theorem c4_counterexample :
    (sortedDisplayClasses
        [⟨"Outer.Inner", [], 10, 5, 0, 0, some false, "Outer.Inner"⟩]).map
      (fun e => e.className) = ["Outer.Inner"] ∧
    hasDot "Outer.Inner" = true := by
  constructor
  · simp [sortedDisplayClasses, aggregateCoverageByTopLevel, buildAgg, upsert,
      topName, finalize, List.insertionSort]
  · decide

/-- C4 (amended): a nested class (dotted name, or explicitly-false flag)
whose name is not the owning identity of any record never appears under its
own name as a row of the per-class table: in merge mode every row is named
by the owning identity of some record, and the row named by the nested
class's own owner carries the full group sums — total lines, and covered
lines clamped to the total when the group total is positive, unclamped
otherwise — so its line counts are folded in; in filter mode
(spec-modelled) a record with an explicitly false flag is always dropped,
and a dotted record is dropped unless its flag is explicitly true. -/
theorem c4_nested_rollup (l : List ClassCoverageInfo) (r : ClassCoverageInfo)
    (hr : r ∈ l)
    (_hnested : hasDot r.className = true ∨ r.topLevel = some false)
    (hnotowner : ∀ s ∈ l, topName s ≠ r.className) :
    (∀ e ∈ sortedDisplayClasses l, ∃ s ∈ l, topName s = e.className) ∧
    (∀ e ∈ sortedDisplayClasses l, e.className ≠ r.className) ∧
    (∀ e ∈ sortedDisplayClasses l, e.className = topName r →
      e.totalLines = groupTotal (topName r) l ∧
      (0 < groupTotal (topName r) l →
        e.coveredCount = min (groupCovered (topName r) l) (groupTotal (topName r) l)) ∧
      (groupTotal (topName r) l ≤ 0 →
        e.coveredCount = groupCovered (topName r) l)) ∧
    ((r.topLevel = some false ∨ (hasDot r.className = true ∧ r.topLevel ≠ some true)) →
      r ∉ aggregateFilterTopLevel l) := by
  have hmem : ∀ e ∈ sortedDisplayClasses l, e ∈ aggregateCoverageByTopLevel l := by
    intro e he
    have hperm := List.perm_insertionSort
      (fun a b : ClassCoverageInfo => b.percentage ≤ a.percentage)
      (aggregateCoverageByTopLevel l)
    exact hperm.mem_iff.mp (by simpa [sortedDisplayClasses] using he)
  refine ⟨?_, ?_, ?_, ?_⟩
  · intro e he
    exact (mem_names_aggregate_iff l e.className).mp
      (List.mem_map_of_mem _ (hmem e he))
  · intro e he hename
    obtain ⟨s, hs, hsname⟩ := (mem_names_aggregate_iff l e.className).mp
      (List.mem_map_of_mem _ (hmem e he))
    exact hnotowner s hs (by rw [hsname, hename])
  · intro e he hename
    obtain ⟨hT, hpos, hnonpos⟩ := mem_aggregate_char l e (hmem e he)
    rw [hename] at hT hpos hnonpos
    exact ⟨hT, fun hgt => (hpos hgt).1, fun hle => (hnonpos hle).1⟩
  · intro hfilter hmem
    unfold aggregateFilterTopLevel at hmem
    by_cases hany : l.any (fun r => r.topLevel.isSome) = true
    · rw [if_pos hany] at hmem
      have hp := List.of_mem_filter hmem
      rcases hfilter with hfalse | ⟨hdot, hne⟩
      · rw [hfalse] at hp
        exact absurd hp (by decide)
      · exact hne (by simpa using hp)
    · rw [if_neg hany] at hmem
      have hp := List.of_mem_filter hmem
      rcases hfilter with hfalse | ⟨hdot, hne⟩
      · exact hany (List.any_eq_true.mpr ⟨r, hr, by rw [hfalse]; rfl⟩)
      · rw [hdot] at hp
        exact absurd hp (by decide)

/-- C4 witness: the nested record `Outer.Inner` (owned by `Outer` through
its dot prefix) never survives filter mode, no merge-mode table row carries
its name, and the table row named by its owner `Outer` carries the folded
group total (20 + 10 = 30). -/
theorem c4_nested_rollup_witness :
    ((⟨"Outer.Inner", [], 10, 5, 5, 50, some false, ""⟩ : ClassCoverageInfo) ∉
      aggregateFilterTopLevel
        [⟨"Outer", [], 20, 10, 10, 50, none, ""⟩,
         ⟨"Outer.Inner", [], 10, 5, 5, 50, some false, ""⟩]) ∧
    (∀ e ∈ sortedDisplayClasses
        [⟨"Outer", [], 20, 10, 10, 50, none, ""⟩,
         ⟨"Outer.Inner", [], 10, 5, 5, 50, some false, ""⟩],
      e.className ≠ "Outer.Inner") ∧
    (⟨"Outer", [], 30, 15, 15, 50, none, ""⟩ : ClassCoverageInfo).totalLines =
      groupTotal (topName ⟨"Outer.Inner", [], 10, 5, 5, 50, some false, ""⟩)
        [⟨"Outer", [], 20, 10, 10, 50, none, ""⟩,
         ⟨"Outer.Inner", [], 10, 5, 5, 50, some false, ""⟩] := by
  have h := c4_nested_rollup
    [⟨"Outer", [], 20, 10, 10, 50, none, ""⟩,
     ⟨"Outer.Inner", [], 10, 5, 5, 50, some false, ""⟩]
    ⟨"Outer.Inner", [], 10, 5, 5, 50, some false, ""⟩
    (by decide) (by decide) (by decide)
  have hdisp : sortedDisplayClasses
      [⟨"Outer", [], 20, 10, 10, 50, none, ""⟩,
       ⟨"Outer.Inner", [], 10, 5, 5, 50, some false, ""⟩] =
      [⟨"Outer", [], 30, 15, 15, 50, none, ""⟩] := by
    simp [sortedDisplayClasses, aggregateCoverageByTopLevel, buildAgg, upsert,
      topName, hasDot, beforeDot, finalize, List.insertionSort]
    norm_num
  refine ⟨h.2.2.2 (by decide), h.2.1, ?_⟩
  exact (h.2.2.1 ⟨"Outer", [], 30, 15, 15, 50, none, ""⟩
    (by rw [hdisp]; exact List.mem_cons_self _ _) (by decide)).1

/-! ## Claim C5 -/

/-- C5 counterexample: at 79.9 percent the severity glyph is the `fair`
tier's 🟡 (the `60 ≤ percentage` branch of `getCoverageEmoji`), not the
`poor` tier's 🟠 as the claim asserts; so the claim's own four-tier rule and
its 79.9 example contradict each other, and the code follows the four-tier
rule. -/
theorem c5_counterexample :
    getCoverageEmoji ((799 : ℚ) / 10) = "🟡" ∧ ("🟡" : String) ≠ "🟠" := by
  constructor
  · unfold getCoverageEmoji
    rw [if_neg (by norm_num), if_pos (by norm_num)]
  · decide

/-- C5 (amended): the severity glyph function has exactly four tiers with
lower-inclusive boundaries — ≥ 80 yields 🟢 (good), ≥ 60 yields 🟡 (fair),
≥ 40 yields 🟠 (poor), anything below yields 🔴 (critical); in particular
80.0 receives the good-tier glyph and 79.9 receives the fair-tier glyph. -/
theorem c5_severity_tiers (p : ℚ) :
    (80 ≤ p → getCoverageEmoji p = "🟢") ∧
    (60 ≤ p → p < 80 → getCoverageEmoji p = "🟡") ∧
    (40 ≤ p → p < 60 → getCoverageEmoji p = "🟠") ∧
    (p < 40 → getCoverageEmoji p = "🔴") ∧
    getCoverageEmoji 80 = "🟢" ∧ getCoverageEmoji ((799 : ℚ) / 10) = "🟡" := by
  refine ⟨?_, ?_, ?_, ?_, ?_, ?_⟩
  · intro h1
    unfold getCoverageEmoji
    rw [if_pos h1]
  · intro h1 h2
    unfold getCoverageEmoji
    rw [if_neg (by linarith), if_pos h1]
  · intro h1 h2
    unfold getCoverageEmoji
    rw [if_neg (by linarith), if_neg (by linarith), if_pos h1]
  · intro h1
    unfold getCoverageEmoji
    rw [if_neg (by linarith), if_neg (by linarith), if_neg (by linarith)]
  · unfold getCoverageEmoji
    rw [if_pos (by norm_num)]
  · unfold getCoverageEmoji
    rw [if_neg (by norm_num), if_pos (by norm_num)]

/-- C5 witness: the tier rules applied at 85, 45 and 30 percent. -/
theorem c5_severity_tiers_witness :
    getCoverageEmoji 85 = "🟢" ∧ getCoverageEmoji 45 = "🟠" ∧
    getCoverageEmoji 30 = "🔴" :=
  ⟨(c5_severity_tiers 85).1 (by norm_num),
   (c5_severity_tiers 45).2.2.1 (by norm_num) (by norm_num),
   (c5_severity_tiers 30).2.2.2.1 (by norm_num)⟩

/-! ## Claim C6 -/

/-- C6: the failing input for the reported reproducibility bug — two classes
`A` (1/2) and `B` (2/4) aggregate to two rows that both carry percentage 50,
so the rendered order of the tied rows is decided by Go's unspecified map
iteration order refined by the unstable `sort.Slice`. -/
theorem c6_equal_percentage_tie :
    (aggregateCoverageByTopLevel
        [⟨"A", [], 2, 1, 0, 0, none, ""⟩, ⟨"B", [], 4, 2, 0, 0, none, ""⟩]).map
      (fun e => (e.className, e.percentage)) = [("A", 50), ("B", 50)] := by
  simp [aggregateCoverageByTopLevel, buildAgg, upsert, topName, hasDot, finalize]
  norm_num

/-! ## Claim C7 -/

/-- C7: with positive coverage totals, the overall percentage rendered in
the summary row and in the coverage bar is the input's `overallCoverage`
field formatted to exactly two decimals, and both renderings are
independent of the per-class records: two inputs differing only in their
class lists produce the identical summary section and bar. -/
theorem c7_overall_percentage (suite : junitTestSuite) (cov : CoverageSummary)
    (cl1 cl2 : List ClassCoverageInfo) (hpos : 0 < cov.totalLines) :
    testSummarySection suite { cov with classes := cl1 } =
      testSummarySection suite { cov with classes := cl2 } ∧
    generateCoverageBar ({ cov with classes := cl1 }).overallCoverage =
      generateCoverageBar ({ cov with classes := cl2 }).overallCoverage ∧
    coverageRows cov =
      "| " ++ getCoverageEmoji cov.overallCoverage ++ " Code Coverage | **" ++
        formatFixed 2 cov.overallCoverage ++ "%** |\n" ++
      "| Lines Covered | **" ++ toString cov.coveredLines ++ "** / **" ++
        toString cov.totalLines ++ "** |\n" ∧
    generateCoverageBar cov.overallCoverage =
      "Coverage: " ++ formatFixed 2 cov.overallCoverage ++ "% [" ++
        strRepeat "█" (coverageBarFilled cov.overallCoverage).toNat ++
        strRepeat "░" (50 - coverageBarFilled cov.overallCoverage).toNat ++ "]" := by
  refine ⟨rfl, rfl, ?_, rfl⟩
  unfold coverageRows
  rw [if_pos hpos]

/-- C7 witness: at overall coverage 75 with 30/40 lines, the summary row
renders `75.00%` — matching the repository's own test expectation — no
matter whether the class list is empty or carries a `Gamma` record. -/
theorem c7_overall_percentage_witness :
    testSummarySection ⟨"s", 3, 0, 1, []⟩
        { classes := [], overallCoverage := 75, totalLines := 40,
          coveredLines := 30, uncoveredLines := 10 } =
      testSummarySection ⟨"s", 3, 0, 1, []⟩
        { classes := [⟨"Gamma", [], 10, 1, 9, 10, none, ""⟩], overallCoverage := 75,
          totalLines := 40, coveredLines := 30, uncoveredLines := 10 } ∧
    coverageRows ⟨[], 75, 40, 30, 10⟩ =
      "| 🟡 Code Coverage | **75.00%** |\n| Lines Covered | **30** / **40** |\n" := by
  have h := c7_overall_percentage ⟨"s", 3, 0, 1, []⟩ ⟨[], 75, 40, 30, 10⟩
    [] [⟨"Gamma", [], 10, 1, 9, 10, none, ""⟩] (by norm_num)
  refine ⟨h.1, ?_⟩
  rw [h.2.2.1]
  have he : getCoverageEmoji (75 : ℚ) = "🟡" := by
    unfold getCoverageEmoji
    rw [if_neg (by norm_num), if_pos (by norm_num)]
  have hf : formatFixed 2 (75 : ℚ) = "75.00" := by
    have hr : roundHalfAway ((75 : ℚ) * ((10 : ℚ) ^ 2)) = 7500 := by
      unfold roundHalfAway
      rw [if_pos (by norm_num)]
      norm_num
    unfold formatFixed
    rw [hr]
    decide
  rw [he, hf]
  decide

/-! ## Claim C8 -/

/-- C8: the failed-tests section is rendered iff the suite-level failure
count is positive; when rendered it holds, for every test case carrying at
least one failure entry, in input order, a subsection titled with the class
and method name followed by each failure's text verbatim — the message when
non-empty, else the body — and no text block when both are empty. -/
theorem c8_failed_tests (suite : junitTestSuite) :
    (¬ 0 < suite.failures → failedTestsSection suite = "") ∧
    (0 < suite.failures →
      failedTestsSection suite =
        "## ❌ Failed Tests\n\n" ++ String.join (suite.testCases.map failedCaseBlock) ∧
      failedTestsSection suite ≠ "") ∧
    (∀ tc : junitTestCase, tc.failures ≠ [] →
      failedCaseBlock tc =
        "### " ++ tc.classname ++ "." ++ tc.name ++ "\n\n" ++
          String.join (tc.failures.map failureBlock)) ∧
    (∀ tc : junitTestCase, tc.failures = [] → failedCaseBlock tc = "") ∧
    (∀ f : junitFailure, f.message ≠ "" →
      failureBlock f = "```\n" ++ f.message ++ "\n```\n\n") ∧
    (∀ f : junitFailure, f.message = "" → f.body ≠ "" →
      failureBlock f = "```\n" ++ f.body ++ "\n```\n\n") ∧
    (∀ f : junitFailure, f.message = "" → f.body = "" → failureBlock f = "") := by
  refine ⟨?_, ?_, ?_, ?_, ?_, ?_, ?_⟩
  · intro h
    unfold failedTestsSection
    rw [if_neg h]
  · intro h
    have h1 : failedTestsSection suite =
        "## ❌ Failed Tests\n\n" ++ String.join (suite.testCases.map failedCaseBlock) := by
      unfold failedTestsSection
      rw [if_pos h]
    refine ⟨h1, ?_⟩
    intro hc
    rw [h1] at hc
    have hlen := congrArg String.length hc
    rw [String.length_append] at hlen
    have hh : 0 < ("## ❌ Failed Tests\n\n" : String).length := by decide
    have hz : ("" : String).length = 0 := by decide
    omega
  · intro tc htc
    unfold failedCaseBlock
    rw [if_pos (List.length_pos.mpr htc)]
  · intro tc htc
    unfold failedCaseBlock
    rw [if_neg (by simp [htc])]
  · intro f hm
    simp only [failureBlock, if_neg hm]
  · intro f hm hb
    simp only [failureBlock, if_pos hm, if_neg hb]
  · intro f hm hb
    simp only [failureBlock, if_pos hm, if_pos hb]

/-- C8 witness: a suite with one failure whose test case carries the
message `boom` renders the section with one titled subsection and the
message verbatim. -/
theorem c8_failed_tests_witness :
    failedTestsSection ⟨"s", 2, 1, 0, [⟨"testOne", "Beta", 0, [⟨"boom", "t", ""⟩]⟩]⟩ ≠ "" ∧
    failedTestsSection ⟨"s", 2, 1, 0, [⟨"testOne", "Beta", 0, [⟨"boom", "t", ""⟩]⟩]⟩ =
      "## ❌ Failed Tests\n\n### Beta.testOne\n\n```\nboom\n```\n\n" :=
  ⟨((c8_failed_tests _).2.1 (by decide)).2, by decide⟩

/-! ## Claim C9 -/

/-- Round half up, as the spec words the bar-fill rounding. -/
def roundHalfUp (x : ℚ) : Int := ⌊x + 1/2⌋

/-- Go's round-half-away-from-zero followed by the clamp of
`generateCoverageBar`/`generateMiniBar` agrees with round-half-up followed
by clamping into `[0, w]`. -/
theorem clamp_eq_min_max (x : ℚ) (w : Int) (hw : 0 ≤ w) :
    (if roundHalfAway x < 0 then 0 else if w < roundHalfAway x then w else roundHalfAway x) =
      min w (max 0 (roundHalfUp x)) := by
  have key : max 0 (roundHalfAway x) = max 0 (roundHalfUp x) := by
    unfold roundHalfAway roundHalfUp
    by_cases hx : 0 ≤ x
    · rw [if_pos hx]
    · rw [if_neg hx]
      push_neg at hx
      have h1 : ⌊x + 1/2⌋ ≤ 0 := by
        have : ⌊x + 1/2⌋ < 1 := Int.floor_lt.mpr (by push_cast; linarith)
        omega
      have h2 : 0 ≤ ⌊-x + 1/2⌋ := Int.floor_nonneg.mpr (by linarith)
      omega
  rcases le_or_lt (roundHalfAway x) 0 with hle | hgt
  · rw [← key]; omega
  · rw [← key]; omega

/-- C9: for both the 50-cell overall bar and the 10-cell mini-bar, the
filled-cell count equals round-half-up(percentage/100 × width) clamped into
[0, width]; in particular 75 percent fills 38 of 50 cells, 0 percent fills
none, 100 percent fills all, and out-of-range percentages clamp. -/
theorem c9_bar_fill (p : ℚ) :
    coverageBarFilled p = min 50 (max 0 (roundHalfUp (p / 100 * 50))) ∧
    miniBarFilled p = min 10 (max 0 (roundHalfUp (p / 100 * 10))) ∧
    coverageBarFilled 75 = 38 ∧ coverageBarFilled 0 = 0 ∧
    coverageBarFilled 100 = 50 ∧ coverageBarFilled 150 = 50 ∧
    coverageBarFilled (-10) = 0 ∧ miniBarFilled 75 = 8 := by
  refine ⟨clamp_eq_min_max _ 50 (by norm_num), clamp_eq_min_max _ 10 (by norm_num),
    ?_, ?_, ?_, ?_, ?_, ?_⟩
  · have hr : roundHalfAway ((75 : ℚ) / 100 * 50) = 38 := by
      unfold roundHalfAway
      rw [if_pos (by norm_num)]
      norm_num
    unfold coverageBarFilled
    rw [hr]
    decide
  · have hr : roundHalfAway ((0 : ℚ) / 100 * 50) = 0 := by
      unfold roundHalfAway
      rw [if_pos (by norm_num)]
      norm_num
    unfold coverageBarFilled
    rw [hr]
    decide
  · have hr : roundHalfAway ((100 : ℚ) / 100 * 50) = 50 := by
      unfold roundHalfAway
      rw [if_pos (by norm_num)]
      norm_num
    unfold coverageBarFilled
    rw [hr]
    decide
  · have hr : roundHalfAway ((150 : ℚ) / 100 * 50) = 75 := by
      unfold roundHalfAway
      rw [if_pos (by norm_num)]
      norm_num
    unfold coverageBarFilled
    rw [hr]
    decide
  · have hr : roundHalfAway ((-10 : ℚ) / 100 * 50) = -5 := by
      unfold roundHalfAway
      rw [if_neg (by norm_num)]
      norm_num
    unfold coverageBarFilled
    rw [hr]
    decide
  · have hr : roundHalfAway ((75 : ℚ) / 100 * 10) = 8 := by
      unfold roundHalfAway
      rw [if_pos (by norm_num)]
      norm_num
    unfold miniBarFilled
    rw [hr]
    decide

/-- C9 witness: the rounding characterisation applied at 37 percent. -/
theorem c9_bar_fill_witness :
    coverageBarFilled 37 = min 50 (max 0 (roundHalfUp ((37 : ℚ) / 100 * 50))) :=
  (c9_bar_fill 37).1

/-! ## Claim C10 -/

/-- C10: the header phrase and the presence of the failed-tests section are
decided solely by the suite-level failure count — the header does not change
when the test cases change, and with a zero count the header reports all
tests passed and the failed-tests section is empty even when individual test
cases carry failure entries; those entries still switch the per-row status
glyph of the timing and listing tables to ❌. -/
theorem c10_header_and_failures (suite : junitTestSuite) (other : List junitTestCase)
    (h : suite.failures = 0) :
    headerSection suite = "# ✅ Apex Test Results: All Tests Passed\n\n" ∧
    headerSection { suite with testCases := other } = headerSection suite ∧
    failedTestsSection suite = "" ∧
    (∀ tc ∈ suite.testCases, 0 < tc.failures.length →
      testStatusEmoji tc = "❌" ∧
      allTestsRow tc = "| ❌ | `" ++ tc.classname ++ "." ++ tc.name ++ "` | " ++
        formatDurationSeconds tc.time ++ " |\n" ∧
      timingRow tc = "| ❌ `" ++ tc.classname ++ "." ++ tc.name ++ "` | " ++
        formatDurationSeconds tc.time ++ " |\n") := by
  refine ⟨?_, rfl, ?_, ?_⟩
  · unfold headerSection
    rw [if_pos h]
  · unfold failedTestsSection
    rw [if_neg (by omega)]
  · intro tc _ hf
    have he : testStatusEmoji tc = "❌" := by
      unfold testStatusEmoji
      rw [if_pos hf]
    refine ⟨he, ?_, ?_⟩
    · unfold allTestsRow
      rw [he]
      rfl
    · unfold timingRow
      rw [he]
      rfl

/-- C10 witness: a suite reporting zero failures whose single test case
nevertheless carries a failure entry — the header says all passed, the
failed-tests section is absent, and the test's row glyph is ❌. -/
theorem c10_header_and_failures_witness :
    headerSection ⟨"s", 1, 0, 0, [⟨"testOne", "Beta", 0, [⟨"boom", "t", ""⟩]⟩]⟩ =
      "# ✅ Apex Test Results: All Tests Passed\n\n" ∧
    failedTestsSection ⟨"s", 1, 0, 0, [⟨"testOne", "Beta", 0, [⟨"boom", "t", ""⟩]⟩]⟩ = "" ∧
    testStatusEmoji ⟨"testOne", "Beta", 0, [⟨"boom", "t", ""⟩]⟩ = "❌" := by
  have h := c10_header_and_failures
    ⟨"s", 1, 0, 0, [⟨"testOne", "Beta", 0, [⟨"boom", "t", ""⟩]⟩]⟩ [] rfl
  exact ⟨h.1, h.2.2.1, (h.2.2.2 _ (List.mem_cons_self _ _) (by decide)).1⟩

end AerDist
